import Mathlib

/-!
Shallow embedding of the resource-service query-builder and
response-materialization subsystem:
  - projects/resource/src/lib/resource-builders.ts  (GetQuery, SearchQuery)
  - projects/resource/src/lib/resource.service.ts   (ResourceService operations)
The Angular HttpParams / HttpHeaders containers are modelled as association
lists with JavaScript Map insertion-order semantics, and JavaScript runtime
values (truthiness, toString of arrays, dynamic calls) are modelled explicitly
where the code depends on them.
-/

namespace ResourceLib

/-- Identifier values: TypeScript `number | string`. -/
inductive Ident where
  | num (n : Int)
  | str (s : String)
deriving DecidableEq, Repr

/-- JavaScript truthiness of an identifier value (`if (this.id)`):
0 and the empty string are falsy. -/
def Ident.truthy : Ident → Bool
  | .num n => n != 0
  | .str s => s != ""

/-- A scalar search value: `number | string`. -/
inductive Scalar where
  | num (n : Int)
  | str (s : String)
deriving DecidableEq, Repr

/-- JavaScript String() of a scalar. -/
def Scalar.toJs : Scalar → String
  | .num n => toString n
  | .str s => s

/-- Search value: TypeScript `number | string | Array<number | string>`. -/
inductive SearchVal where
  | scalar (v : Scalar)
  | arr (vs : List Scalar)
deriving DecidableEq, Repr

/-- JavaScript `.toString()` of a search value: an array joins its elements
with commas (`[1,2,3].toString() === "1,2,3"`). -/
def SearchVal.toJs : SearchVal → String
  | .scalar v => v.toJs
  | .arr vs => String.intercalate "," (vs.map Scalar.toJs)

/-- Setting a key in an insertion-ordered map (JavaScript `Map.set`, which is
what Angular `HttpParams.set` / `HttpHeaders.set` and plain-object key
assignment use): replacing an existing key keeps its original position, a new
key is appended at the end. -/
def assocSet {κ α : Type} [DecidableEq κ] (ps : List (κ × α)) (k : κ) (v : α) :
    List (κ × α) :=
  if ps.any (fun p => p.1 == k) then
    ps.map (fun p => if p.1 == k then (k, v) else p)
  else ps ++ [(k, v)]

/-- Lookup of a key in an insertion-ordered map. -/
def assocGet {κ α : Type} [DecidableEq κ] (ps : List (κ × α)) (k : κ) :
    Option α :=
  (ps.find? (fun p => p.1 == k)).map Prod.snd

/-- Serialized query parameters: ordered key/value pairs exactly as Angular
HttpParams would emit them. -/
abbrev Params := List (String × String)

/-- Ordering direction: `'asc' | 'desc'`. -/
inductive Dir where
  | asc
  | desc
deriving DecidableEq, Repr

/-- The literal string of a direction. -/
def Dir.toJs : Dir → String
  | .asc => "asc"
  | .desc => "desc"

/-- JSON string escaping of one character (the escapes JSON.stringify emits
for the characters that can occur in field names here). -/
def jsonEscapeChar (c : Char) : String :=
  if c = '"' then "\\\""
  else if c = '\\' then "\\\\"
  else if c = '\n' then "\\n"
  else if c = '\r' then "\\r"
  else if c = '\t' then "\\t"
  else String.singleton c

/-- JSON.stringify of a string. -/
def jsonString (s : String) : String :=
  "\"" ++ String.join (s.toList.map jsonEscapeChar) ++ "\""

/-- JSON.stringify of the orderBy array `[[field, type], ...]`, as built by
`GetQuery.getHttpParams` (resource-builders.ts lines 85..91). -/
def orderJson (l : List (String × Dir)) : String :=
  "[" ++
    String.intercalate ","
      (l.map (fun p => "[" ++ jsonString p.1 ++ "," ++ jsonString p.2.toJs ++ "]"))
    ++ "]"

/-- Header value: TypeScript `string | string[]`. -/
inductive HVal where
  | str (s : String)
  | arr (vs : List String)
deriving DecidableEq, Repr

/-- JavaScript `.toString()` of a header value: an array joins with commas. -/
def HVal.toJs : HVal → String
  | .str s => s
  | .arr vs => String.intercalate "," vs

/-- Tag identifying which bound service function a builder delegates to
(`this.list.bind(this)`, `this.get.bind(this)`, `this.search.bind(this)`). -/
inductive Handler where
  | listH
  | getH
  | searchH
deriving DecidableEq, Repr

/-- GetQuery state (resource-builders.ts lines 25..38).  The handler slot is
parametrised by a type because `findWhere` in resource.service.ts passes a
non-function value into it: the typed builders use `Handler`, the dynamic run
of `findWhere` uses `DynVal`.  Fields that are `undefined` until a modifier
runs (`id`, `limitResult`, `pageNumber`) are Options. -/
structure GetQuery (φ : Type) where
  getHandler : φ
  id : Option Ident := none
  onlyFields : List String := []
  limitResult : Option Int := none
  pageNumber : Option Int := none
  orderByFields : List (String × Dir) := []
  headers : List (String × HVal) := []
deriving DecidableEq, Repr

/-- GetQuery.only: `this.onlyFields = this.onlyFields.concat(...fields)`. -/
def GetQuery.only {φ : Type} (q : GetQuery φ) (fields : List String) :
    GetQuery φ :=
  { q with onlyFields := q.onlyFields ++ fields }

/-- GetQuery.limit: sets/overwrites `limitResult`. -/
def GetQuery.limit {φ : Type} (q : GetQuery φ) (n : Int) : GetQuery φ :=
  { q with limitResult := some n }

/-- GetQuery.page: sets/overwrites `pageNumber`. -/
def GetQuery.page {φ : Type} (q : GetQuery φ) (n : Int) : GetQuery φ :=
  { q with pageNumber := some n }

/-- GetQuery.orderBy: `this.orderByFields.push({field, type})`. -/
def GetQuery.orderBy {φ : Type} (q : GetQuery φ) (f : String) (d : Dir) :
    GetQuery φ :=
  { q with orderByFields := q.orderByFields ++ [(f, d)] }

/-- GetQuery.header: `this.headers[key] = value` (plain-object assignment:
existing key keeps its position, new key appended). -/
def GetQuery.header {φ : Type} (q : GetQuery φ) (k : String) (v : HVal) :
    GetQuery φ :=
  { q with headers := assocSet q.headers k v }

/-- GetQuery.fresh: `this.headers['no-cache'] = '1'`. -/
def GetQuery.fresh {φ : Type} (q : GetQuery φ) : GetQuery φ :=
  { q with headers := assocSet q.headers "no-cache" (HVal.str "1") }

/-- GetQuery.getHttpParams (resource-builders.ts lines 71..93): starts from an
empty HttpParams and conditionally sets `only`, `limit`, `page`, `order`.
The `limit` and `page` guards are JavaScript truthiness tests
(`if (this.limitResult)` / `if (this.pageNumber)`): an unset field or a stored
0 is skipped. -/
def GetQuery.getHttpParams {φ : Type} (q : GetQuery φ) : Params :=
  let p0 : Params := []
  let p1 :=
    if q.onlyFields.length != 0 then
      assocSet p0 "only" (String.intercalate "," q.onlyFields)
    else p0
  let p2 :=
    match q.limitResult with
    | some n => if n != 0 then assocSet p1 "limit" (toString n) else p1
    | none => p1
  let p3 :=
    match q.pageNumber with
    | some n => if n != 0 then assocSet p2 "page" (toString n) else p2
    | none => p2
  let p4 :=
    if q.orderByFields.length != 0 then
      assocSet p3 "order" (orderJson q.orderByFields)
    else p3
  p4

/-- GetQuery.getHttpHeaders (resource-builders.ts lines 95..106): returns
null when the accumulated header object has no keys, otherwise an HttpHeaders
with each value stringified (`headers[key].toString()`). -/
def GetQuery.getHttpHeaders {φ : Type} (q : GetQuery φ) :
    Option (List (String × String)) :=
  if q.headers.isEmpty then none
  else some (q.headers.map (fun p => (p.1, p.2.toJs)))

/-- The argument shape of the delegate call made by `GetQuery.get`:
either `(id, params, headers)` or `(params, headers)`. -/
inductive CallShape where
  | withId (id : Ident) (params : Params)
      (headers : Option (List (String × String)))
  | noId (params : Params) (headers : Option (List (String × String)))
deriving DecidableEq, Repr

/-- GetQuery.get (resource-builders.ts lines 108..115): builds params and
headers, then `if (this.id)` (truthiness) calls
`this.getHandler(this.id, params, headers)`, else
`this.getHandler(params, headers)`.  The result records which handler value
is invoked and with which argument shape. -/
def GetQuery.get {φ : Type} (q : GetQuery φ) : φ × CallShape :=
  let params := q.getHttpParams
  let headers := q.getHttpHeaders
  match q.id with
  | some i =>
    if i.truthy then (q.getHandler, CallShape.withId i params headers)
    else (q.getHandler, CallShape.noId params headers)
  | none => (q.getHandler, CallShape.noId params headers)

/-- ResourceService.findAll (resource.service.ts lines 71..73):
`new GetQuery<T>(this.list.bind(this))`. -/
def findAll : GetQuery Handler :=
  { getHandler := Handler.listH }

/-- ResourceService.findById (resource.service.ts lines 130..132):
`new GetQuery<T>(this.get.bind(this), id)`. -/
def findById (i : Ident) : GetQuery Handler :=
  { getHandler := Handler.getH, id := some i }

/-- JSON values as delivered by the transport after deserialization
(JSON has no function values). -/
inductive JVal where
  | jnum (n : Int)
  | jstr (s : String)
  | jbool (b : Bool)
  | jnull
deriving DecidableEq, Repr

/-- JavaScript truthiness of a JSON value. -/
def JVal.truthy : JVal → Bool
  | .jnum n => n != 0
  | .jstr s => s != ""
  | .jbool b => b
  | .jnull => false

/-- A record: the own-enumerable fields of a plain object, in insertion
order. -/
abbrev Rec := List (String × JVal)

/-- Object.assign(target, src): copies every own-enumerable field of `src`
onto `target` in order, overwriting existing keys in place. -/
def objAssign (target src : Rec) : Rec :=
  src.foldl (fun t p => assocSet t p.1 p.2) target

/-- String() of a possibly-absent JSON value, as JavaScript string
concatenation (`this.apiUrl + '/' + resource.id`) would render it. -/
def jsShow : Option JVal → String
  | some (JVal.jnum n) => toString n
  | some (JVal.jstr s) => s
  | some (JVal.jbool b) => if b then "true" else "false"
  | some JVal.jnull => "null"
  | none => "undefined"

/-- A model class handed to ResourceService: `new this.modelClass()`
produces an object whose own fields are `init`, and the class optionally
declares an `onInstantiated` method on its prototype (`hook`). -/
structure ModelClass where
  init : Rec
  hook : Option (Rec → Rec)

/-- The one JavaScript runtime error the embedded code can raise:
calling a value that is not a function. -/
inductive JsError where
  | typeError
deriving DecidableEq, Repr

/-- Materialization of one raw record (resource.service.ts lines 90..95 and
450..454): `const item = new this.modelClass(); Object.assign(item, data);
if (item.onInstantiated) item.onInstantiated();`.  The property read
`item.onInstantiated` sees an own field copied from the raw record first and
the prototype method only otherwise; a truthy own JSON value is not callable,
so invoking it raises a TypeError.  The result pairs the final record with
the list of records the hook was invoked on. -/
def materializeTrace (m : ModelClass) (row : Rec) :
    Except JsError (Rec × List Rec) :=
  let item := objAssign m.init row
  match assocGet item "onInstantiated" with
  | some v =>
    if v.truthy then Except.error JsError.typeError else Except.ok (item, [])
  | none =>
    match m.hook with
    | some h => Except.ok (h item, [item])
    | none => Except.ok (item, [])

/-- Materialization of one raw record, final record only. -/
def materializeOne (m : ModelClass) (row : Rec) : Except JsError Rec :=
  (materializeTrace m row).map Prod.fst

/-- Response metadata: `{ count?: number }`. -/
structure MetaV where
  count : Option Int := none
deriving DecidableEq, Repr

/-- List response envelope: `{ data?: T[], meta?: ResponseMeta }`. -/
structure ListResp where
  data : Option (List Rec) := none
  meta : Option MetaV := none
deriving DecidableEq, Repr

/-- The materialization loop of generateListResponse (resource.service.ts
lines 448..456): each row of `result.data` is materialized in order and
pushed onto `items`; a hook TypeError thrown mid-loop aborts the whole
call. -/
def materializeList (m : ModelClass) : List Rec → Except JsError (List Rec)
  | [] => Except.ok []
  | row :: rest =>
    match materializeOne m row with
    | Except.error e => Except.error e
    | Except.ok item =>
      match materializeList m rest with
      | Except.error e => Except.error e
      | Except.ok items => Except.ok (item :: items)

/-- ResourceService.generateListResponse (resource.service.ts lines
446..460): when `result.data` is present (an array, even empty, is truthy)
each row is materialized and the envelope's data is replaced by the
materialized items; otherwise the envelope is returned untouched. -/
def generateListResponse (m : ModelClass) (result : ListResp) :
    Except JsError ListResp :=
  match result.data with
  | some rows =>
    match materializeList m rows with
    | Except.error e => Except.error e
    | Except.ok items => Except.ok { result with data := some items }
  | none => Except.ok result

/-- SearchQuery state (resource-builders.ts lines 121..136): inherits
GetQuery state (the superclass constructor stores the handler argument) plus
the accumulated `searchParams`, each value stringified at insertion. -/
structure SearchQuery where
  base : GetQuery Handler
  searchParams : List (String × String)
deriving DecidableEq, Repr

/-- The SearchQuery constructor applied to arguments matching its declared
signature `(field, value, searchHandler)` — the way the unit tests and the
earlier service revision (src/unnamed/part_002) invoke it:
`super(searchHandler); this.searchParams.push({field, value: value.toString()});
this.searchHandler = searchHandler;`.  The current `findWhere` in
resource.service.ts passes the arguments in a different order; that dynamic
call is modelled separately below. -/
def SearchQuery.new (field : String) (value : SearchVal) : SearchQuery :=
  { base := { getHandler := Handler.searchH }
  , searchParams := [(field, value.toJs)] }

/-- SearchQuery.andWhere (resource-builders.ts lines 138..144):
`this.searchParams.push({field, value: value.toString()})`. -/
def SearchQuery.andWhere (q : SearchQuery) (field : String)
    (value : SearchVal) : SearchQuery :=
  { q with searchParams := q.searchParams ++ [(field, value.toJs)] }

/-- HTTP methods used by the service. -/
inductive Method where
  | get
  | post
  | put
  | patch
  | delete
deriving DecidableEq, Repr

/-- The invocation a SearchQuery terminal operation hands to the bound
`ResourceService.search`: `(params, method, resource, headers)`. -/
structure SearchCall where
  params : Params
  method : Method
  body : Option Rec
  headers : Option (List (String × String))
deriving DecidableEq, Repr

/-- SearchQuery.get (resource-builders.ts lines 149..156): params are
`this.getHttpParams()` followed by `params.set(field, value)` for each
accumulated search param, then
`this.searchHandler(params, 'get', null, this.getHttpHeaders())`. -/
def SearchQuery.get (q : SearchQuery) : SearchCall :=
  let params :=
    q.searchParams.foldl (fun ps p => assocSet ps p.1 p.2) q.base.getHttpParams
  { params := params, method := Method.get, body := none
  , headers := q.base.getHttpHeaders }

/-- SearchQuery.remove (resource-builders.ts lines 158..164): same parameter
build, then `this.searchHandler(params, 'delete', null, headers)`. -/
def SearchQuery.remove (q : SearchQuery) : SearchCall :=
  let params :=
    q.searchParams.foldl (fun ps p => assocSet ps p.1 p.2) q.base.getHttpParams
  { params := params, method := Method.delete, body := none
  , headers := q.base.getHttpHeaders }

/-- SearchQuery.patch (resource-builders.ts lines 166..172): same parameter
build, then `this.searchHandler(params, 'patch', resource, headers)`. -/
def SearchQuery.patch (q : SearchQuery) (resource : Rec) : SearchCall :=
  let params :=
    q.searchParams.foldl (fun ps p => assocSet ps p.1 p.2) q.base.getHttpParams
  { params := params, method := Method.patch, body := some resource
  , headers := q.base.getHttpHeaders }

/-- Dynamic (runtime) values flowing through the `findWhere` call in
resource.service.ts line 391: a string, a `number|string|Array` search value,
or the bound `this.search` function. -/
inductive DynVal where
  | str (s : String)
  | sval (v : SearchVal)
  | boundSearch
deriving DecidableEq, Repr

/-- JavaScript `.toString()` of a dynamic value (a bound function stringifies
to native-code source text). -/
def DynVal.toJs : DynVal → String
  | .str s => s
  | .sval v => v.toJs
  | .boundSearch => "function () \x7b [native code] \x7d"

/-- SearchQuery state as produced at runtime by the constructor, with the
dynamic argument values: the superclass slot and `searchHandler` hold
whatever the third .. first arguments actually were, and the search-param
field slot holds whatever the first argument was. -/
structure SearchQueryDyn where
  base : GetQuery DynVal
  searchParams : List (DynVal × String)
  searchHandler : DynVal
deriving DecidableEq, Repr

/-- The SearchQuery constructor body (resource-builders.ts lines 125..136)
evaluated on dynamic argument values, with no runtime type checks:
`super(searchHandler)`, push `(field, value.toString())`, store
`searchHandler`. -/
def searchQueryNew (field value searchHandler : DynVal) : SearchQueryDyn :=
  { base := { getHandler := searchHandler }
  , searchParams := [(field, value.toJs)]
  , searchHandler := searchHandler }

/-- ResourceService.findWhere (resource.service.ts lines 387..392):
`new SearchQuery<T>(this.search.bind(this), field, value)` — the bound search
function is passed in the constructor's `field` position, the field name in
its `value` position and the value in its `searchHandler` position. -/
def findWhere (field : String) (value : SearchVal) : SearchQueryDyn :=
  searchQueryNew DynVal.boundSearch (DynVal.str field) (DynVal.sval value)

/-- An HTTP request as handed to the transport. -/
structure HttpCall where
  method : Method
  url : String
  params : List (DynVal × String)
  headers : Option (List (String × String))
  body : Option Rec
deriving DecidableEq, Repr

/-- SearchQuery.remove evaluated on the dynamic state (resource-builders.ts
lines 158..164 composed with resource.service.ts search, lines 331..379):
params are built by `set(field, value)` over the accumulated pairs, then
`this.searchHandler(params, 'delete', null, this.getHttpHeaders())` is
called.  When `searchHandler` is the bound search function this issues
`DELETE apiUrl + '/search'`; when it is any non-function value the call
raises a TypeError and no request is issued. -/
def SearchQueryDyn.removeRun (q : SearchQueryDyn) (apiUrl : String) :
    Except JsError HttpCall :=
  let baseParams := q.base.getHttpParams.map (fun p => (DynVal.str p.1, p.2))
  let params := q.searchParams.foldl (fun ps p => assocSet ps p.1 p.2) baseParams
  match q.searchHandler with
  | DynVal.boundSearch =>
    Except.ok
      { method := Method.delete, url := apiUrl ++ "/search", params := params
      , headers := q.base.getHttpHeaders, body := none }
  | _ => Except.error JsError.typeError

/-- ResourceService.list success/failure continuation (resource.service.ts
lines 51..65): on transport error the promise rejects with that error; on
success it resolves with `generateListResponse(result)` (which can itself
throw a TypeError, kept as the inner Except). -/
def listOutcome {ε : Type} (m : ModelClass) (t : Except ε ListResp) :
    Except ε (Except JsError ListResp) :=
  match t with
  | Except.error e => Except.error e
  | Except.ok result => Except.ok (generateListResponse m result)

/-- ResourceService.get success/failure continuation (resource.service.ts
lines 82..102): reject with the transport error, or resolve with the
materialized instance. -/
def getOutcome {ε : Type} (m : ModelClass) (t : Except ε Rec) :
    Except ε (Except JsError Rec) :=
  match t with
  | Except.error e => Except.error e
  | Except.ok data => Except.ok (materializeOne m data)

/-- ResourceService.create success/failure continuation (resource.service.ts
lines 140..156): `Object.assign(resource, data); res(resource)` with no null
guard — but Object.assign ignores a null source, so a null body leaves the
resource untouched. -/
def createOutcome {ε : Type} (resource : Rec) (t : Except ε (Option Rec)) :
    Except ε Rec :=
  match t with
  | Except.error e => Except.error e
  | Except.ok none => Except.ok resource
  | Except.ok (some data) => Except.ok (objAssign resource data)

/-- ResourceService.update success/failure continuation (resource.service.ts
lines 186..206): `if (data) Object.assign(resource, data); res(resource)`. -/
def updateOutcome {ε : Type} (resource : Rec) (t : Except ε (Option Rec)) :
    Except ε Rec :=
  match t with
  | Except.error e => Except.error e
  | Except.ok none => Except.ok resource
  | Except.ok (some data) => Except.ok (objAssign resource data)

/-- ResourceService.patch success/failure continuation (resource.service.ts
lines 235..255): same merge-and-resolve shape as update. -/
def patchOutcome {ε : Type} (resource : Rec) (t : Except ε (Option Rec)) :
    Except ε Rec :=
  match t with
  | Except.error e => Except.error e
  | Except.ok none => Except.ok resource
  | Except.ok (some data) => Except.ok (objAssign resource data)

/-- ResourceService.remove success/failure continuation (resource.service.ts
lines 284..301): the response body is bound to `_` and ignored; the promise
resolves with the original resource argument. -/
def removeOutcome {ε : Type} (resource : Rec) (t : Except ε (Option Rec)) :
    Except ε Rec :=
  match t with
  | Except.error e => Except.error e
  | Except.ok _ => Except.ok resource

/-- The request ResourceService.remove issues:
`this.http.delete(this.apiUrl + '/' + resource.id, ...)`. -/
def removeRequest (apiUrl : String) (resource : Rec) : Method × String :=
  (Method.delete, apiUrl ++ "/" ++ jsShow (assocGet resource "id"))

/-- ResourceService.search with method 'get' (resource.service.ts lines
353..364): reject with the transport error, or resolve with the materialized
list envelope. -/
def searchGetOutcome {ε : Type} (m : ModelClass) (t : Except ε ListResp) :
    Except ε (Except JsError ListResp) :=
  match t with
  | Except.error e => Except.error e
  | Except.ok result => Except.ok (generateListResponse m result)

/-- ResourceService.search with method 'patch' or 'delete'
(resource.service.ts lines 365..377): reject with the transport error, or
resolve with undefined. -/
def searchWriteOutcome {ε : Type} (t : Except ε (Option Rec)) :
    Except ε Unit :=
  match t with
  | Except.error e => Except.error e
  | Except.ok _ => Except.ok ()

/-- ResourceService.upload / uploadFor success/failure continuation
(resource.service.ts lines 399..416 and 423..444): reject with the transport
error, or resolve with the raw response, not materialized. -/
def uploadOutcome {ε : Type} (t : Except ε Rec) : Except ε Rec :=
  match t with
  | Except.error e => Except.error e
  | Except.ok data => Except.ok data

/-- A demonstration onInstantiated hook used by the concrete materialization
instances below: it marks the instance with a `hooked` field. -/
def hookDemo : Rec → Rec :=
  fun r => assocSet r "hooked" (JVal.jbool true)

/-- A demonstration model class declaring the hook. -/
def modelDemo : ModelClass :=
  { init := [], hook := some hookDemo }

/-- A demonstration raw record as the transport would return it. -/
def rowDemo : Rec :=
  [("id", JVal.jnum 123), ("name", JVal.jstr "abc")]

/-- A demonstration search query built through the declared constructor and
modifier methods: filters id=1 and name=abc plus an inherited limit of 5. -/
def searchDemo : SearchQuery :=
  let sq := (SearchQuery.new "id" (SearchVal.scalar (Scalar.num 1))).andWhere
    "name" (SearchVal.scalar (Scalar.str "abc"))
  { sq with base := sq.base.limit 5 }

end ResourceLib

namespace ResourceLib

/-- Restatement of getHttpParams as a concatenation of its four optional
parts: each conditional `set` in the source targets a key absent from the
accumulated parameters, so it appends. -/
theorem getHttpParams_eq {φ : Type} (q : GetQuery φ) :
    q.getHttpParams =
      (if q.onlyFields.length != 0 then
        [("only", String.intercalate "," q.onlyFields)] else [])
      ++ (match q.limitResult with
          | some n => if n != 0 then [("limit", toString n)] else []
          | none => [])
      ++ (match q.pageNumber with
          | some n => if n != 0 then [("page", toString n)] else []
          | none => [])
      ++ (if q.orderByFields.length != 0 then
          [("order", orderJson q.orderByFields)] else []) := by
  rcases q with ⟨h, id, onlyF, limitR, pageR, orderF, hdrs⟩
  rcases limitR with _ | n <;> rcases pageR with _ | m <;>
    (dsimp only [GetQuery.getHttpParams]; split_ifs <;> simp [assocSet])

/-- The `order` entry of the serialized parameters is exactly the JSON of the
accumulated orderBy list whenever that list is nonempty. -/
theorem assocGet_order {φ : Type} (q : GetQuery φ) (hq : q.orderByFields ≠ []) :
    assocGet q.getHttpParams "order" = some (orderJson q.orderByFields) := by
  rcases q with ⟨h, id, onlyF, limitR, pageR, orderF, hdrs⟩
  rw [getHttpParams_eq]
  rcases limitR with _ | n <;> rcases pageR with _ | m <;>
    first
    | (by_cases hn : n = 0 <;> by_cases hm : m = 0 <;> simp_all [assocGet])
    | (by_cases hn : n = 0 <;> simp_all [assocGet])
    | (by_cases hm : m = 0 <;> simp_all [assocGet])
    | simp_all [assocGet]

/-- The `limit` entry of the serialized parameters is present exactly when
the stored value is truthy. -/
theorem assocGet_limit {φ : Type} (q : GetQuery φ) :
    assocGet q.getHttpParams "limit" =
      (match q.limitResult with
       | some n => if n != 0 then some (toString n) else none
       | none => none) := by
  rcases q with ⟨h, id, onlyF, limitR, pageR, orderF, hdrs⟩
  rw [getHttpParams_eq]
  rcases limitR with _ | n <;> rcases pageR with _ | m <;>
    first
    | (by_cases hn : n = 0 <;> by_cases hm : m = 0 <;> simp_all [assocGet])
    | (by_cases hn : n = 0 <;> simp_all [assocGet])
    | (by_cases hm : m = 0 <;> simp_all [assocGet])
    | simp_all [assocGet]

/-- The `page` entry of the serialized parameters is present exactly when
the stored value is truthy. -/
theorem assocGet_page {φ : Type} (q : GetQuery φ) :
    assocGet q.getHttpParams "page" =
      (match q.pageNumber with
       | some n => if n != 0 then some (toString n) else none
       | none => none) := by
  rcases q with ⟨h, id, onlyF, limitR, pageR, orderF, hdrs⟩
  rw [getHttpParams_eq]
  rcases limitR with _ | n <;> rcases pageR with _ | m <;>
    first
    | (by_cases hn : n = 0 <;> by_cases hm : m = 0 <;> simp_all [assocGet])
    | (by_cases hn : n = 0 <;> simp_all [assocGet])
    | (by_cases hm : m = 0 <;> simp_all [assocGet])
    | simp_all [assocGet]

/-- Every key of the serialized builder parameters is one of the four
builder-level parameter names. -/
theorem getHttpParams_key_mem {φ : Type} (q : GetQuery φ) :
    ∀ p ∈ q.getHttpParams,
      p.1 = "only" ∨ p.1 = "limit" ∨ p.1 = "page" ∨ p.1 = "order" := by
  rw [getHttpParams_eq]
  intro p hp
  simp only [List.mem_append] at hp
  rcases hp with ((hp | hp) | hp) | hp <;>
    (split at hp <;> try split at hp) <;> simp_all

/-- Setting a key that is not yet present appends it at the end. -/
theorem assocSet_not_mem {κ α : Type} [DecidableEq κ] (ps : List (κ × α))
    (k : κ) (v : α) (h : ∀ p ∈ ps, p.1 ≠ k) :
    assocSet ps k v = ps ++ [(k, v)] := by
  have hc : ps.any (fun p => p.1 == k) = false := by
    simp only [List.any_eq_false]
    intro p hp
    simpa using h p hp
  simp [assocSet, hc]

/-- Folding set over pairwise-fresh keys that are also absent from the
accumulator appends the pairs in order. -/
theorem foldl_assocSet_eq_append {κ α : Type} [DecidableEq κ]
    (l : List (κ × α)) :
    ∀ acc : List (κ × α), (l.map Prod.fst).Nodup →
      (∀ p ∈ l, ∀ a ∈ acc, a.1 ≠ p.1) →
      l.foldl (fun ps p => assocSet ps p.1 p.2) acc = acc ++ l := by
  induction l with
  | nil =>
    intro acc _ _
    simp
  | cons hd tl ih =>
    intro acc hnd hdisj
    have hnd2 : (tl.map Prod.fst).Nodup := by
      simp only [List.map_cons, List.nodup_cons] at hnd
      exact hnd.2
    have hhd : hd.1 ∉ tl.map Prod.fst := by
      simp only [List.map_cons, List.nodup_cons] at hnd
      exact hnd.1
    have hstep : assocSet acc hd.1 hd.2 = acc ++ [hd] := by
      rw [assocSet_not_mem acc hd.1 hd.2
        (fun a ha => hdisj hd (by simp) a ha)]
    rw [List.foldl_cons, hstep, ih (acc ++ [hd]) hnd2 ?hdj]
    · simp
    case hdj =>
      intro p hp a ha
      rcases List.mem_append.mp ha with ha | ha
      · exact hdisj p (by simp [hp]) a ha
      · simp only [List.mem_singleton] at ha
        subst ha
        intro he
        have hmem : p.1 ∈ tl.map Prod.fst := List.mem_map_of_mem Prod.fst hp
        rw [← he] at hmem
        exact hhd hmem

end ResourceLib

namespace ResourceLib

/-- C7: orderBy('a','asc') then orderBy('b','desc') serializes the order
parameter to the JSON text of the two pairs in call order; in general each
orderBy call appends one (field, direction) entry, entries accumulate in call
order, and serialization emits exactly the accumulated list, never re-sorted
or de-duplicated. -/
theorem orderBy_accumulates_in_call_order {φ : Type} (q : GetQuery φ)
    (f : String) (d : Dir) (hq : q.orderByFields ≠ []) :
    (q.orderBy f d).orderByFields = q.orderByFields ++ [(f, d)]
    ∧ assocGet q.getHttpParams "order" = some (orderJson q.orderByFields)
    ∧ assocGet (((findAll.orderBy "a" Dir.asc).orderBy "b"
        Dir.desc).getHttpParams) "order"
      = some "[[\"a\",\"asc\"],[\"b\",\"desc\"]]" :=
  ⟨rfl, assocGet_order q hq, by decide⟩

/-- C7 witness: the theorem instantiated at the builder that already ordered
by field a ascending, appending b descending. -/
theorem orderBy_accumulates_in_call_order_witness :
    (findAll.orderBy "a" Dir.asc).orderByFields ≠ []
    ∧ assocGet (findAll.orderBy "a" Dir.asc).getHttpParams "order"
      = some (orderJson (findAll.orderBy "a" Dir.asc).orderByFields) :=
  ⟨by decide,
   (orderBy_accumulates_in_call_order (findAll.orderBy "a" Dir.asc) "b" Dir.desc
     (by decide)).2.1⟩

/-- C10: limit(0) or page(0) (also after overwriting a previously positive
value) leaves the corresponding query parameter out of the serialized
parameters entirely; in general the limit/page entries are present exactly
when the stored value is truthy. -/
theorem falsy_limit_page_omitted {φ : Type} (q : GetQuery φ) (n : Int) :
    assocGet ((q.limit 0).getHttpParams) "limit" = none
    ∧ assocGet ((q.page 0).getHttpParams) "page" = none
    ∧ assocGet (((q.limit n).limit 0).getHttpParams) "limit" = none
    ∧ assocGet q.getHttpParams "limit" =
        (match q.limitResult with
         | some m => if m != 0 then some (toString m) else none
         | none => none)
    ∧ assocGet q.getHttpParams "page" =
        (match q.pageNumber with
         | some m => if m != 0 then some (toString m) else none
         | none => none) := by
  refine ⟨?_, ?_, ?_, assocGet_limit q, assocGet_page q⟩
  · simpa using assocGet_limit (q.limit 0)
  · simpa using assocGet_page (q.page 0)
  · simpa using assocGet_limit ((q.limit n).limit 0)

/-- C9: a builder on which no header or fresh call was made serializes its
headers to nothing at all (not an empty map); the other modifiers never touch
the header state; a builder with at least one entry serializes to exactly the
accumulated entries. -/
theorem header_serialization_empty_absent {φ : Type} (q : GetQuery φ)
    (fs : List String) (n : Int) (f : String) (d : Dir) :
    findAll.headers = []
    ∧ GetQuery.getHttpHeaders findAll = none
    ∧ GetQuery.getHttpHeaders findAll ≠ some []
    ∧ (q.only fs).headers = q.headers
    ∧ (q.limit n).headers = q.headers
    ∧ (q.page n).headers = q.headers
    ∧ (q.orderBy f d).headers = q.headers
    ∧ (findAll.header "X-Custom" (HVal.str "y")).getHttpHeaders
      = some [("X-Custom", "y")]
    ∧ (GetQuery.fresh findAll).getHttpHeaders = some [("no-cache", "1")]
    ∧ q.getHttpHeaders =
        (if q.headers.isEmpty then none
         else some (q.headers.map (fun p => (p.1, p.2.toJs)))) := by
  refine ⟨rfl, rfl, by decide, rfl, rfl, rfl, rfl, by decide, by decide, rfl⟩

/-- C4: update and patch resolve with the caller's own resource; an empty
response body (an empty object, or no body at all) leaves every field
unchanged, and a nonempty body is shallow-copied field by field onto the
original object. -/
theorem update_patch_merge_preserves_identity (ε : Type) (resource d : Rec) :
    updateOutcome resource (Except.ok (some []) : Except ε (Option Rec))
      = Except.ok resource
    ∧ updateOutcome resource (Except.ok none : Except ε (Option Rec))
      = Except.ok resource
    ∧ updateOutcome resource (Except.ok (some d) : Except ε (Option Rec))
      = Except.ok (objAssign resource d)
    ∧ patchOutcome resource (Except.ok (some []) : Except ε (Option Rec))
      = Except.ok resource
    ∧ patchOutcome resource (Except.ok none : Except ε (Option Rec))
      = Except.ok resource
    ∧ patchOutcome resource (Except.ok (some d) : Except ε (Option Rec))
      = Except.ok (objAssign resource d)
    ∧ objAssign resource [] = resource :=
  ⟨rfl, rfl, rfl, rfl, rfl, rfl, rfl⟩

/-- C5: every one of the eight canonical operations rejects with the
transport error itself, unmodified, whenever the underlying HTTP call fails;
no materialization or merge happens in that case. -/
theorem transport_error_propagation (ε : Type) (e : ε) (m : ModelClass)
    (r : Rec) :
    listOutcome m (Except.error e) = Except.error e
    ∧ getOutcome m (Except.error e) = Except.error e
    ∧ createOutcome r (Except.error e) = Except.error e
    ∧ updateOutcome r (Except.error e) = Except.error e
    ∧ patchOutcome r (Except.error e) = Except.error e
    ∧ removeOutcome r (Except.error e) = Except.error e
    ∧ searchGetOutcome m (Except.error e) = Except.error e
    ∧ searchWriteOutcome (Except.error e : Except ε (Option Rec))
      = Except.error e
    ∧ uploadOutcome (Except.error e : Except ε Rec) = Except.error e :=
  ⟨rfl, rfl, rfl, rfl, rfl, rfl, rfl, rfl, rfl⟩

/-- C8: remove issues a DELETE and, on success, resolves with the original
resource with every field unchanged, no matter what body the server
returned. -/
theorem remove_resolves_original (ε : Type) (apiUrl : String) (resource : Rec)
    (body : Option Rec) :
    (removeRequest apiUrl resource).1 = Method.delete
    ∧ removeOutcome resource (Except.ok body : Except ε (Option Rec))
      = Except.ok resource :=
  ⟨rfl, rfl⟩

/-- C1 (code bug): findWhere('id', [1,2,3]) hands the bound search function,
the field name and the value to the SearchQuery constructor in that order,
while the constructor is declared (field, value, searchHandler); the
resulting query's searchHandler is the array, so .remove() raises a TypeError
for every base URL and no DELETE is issued.  The last conjunct shows the
constructor applied in its declared order produces the DELETE to /search
with id=1,2,3 that the claim and the repository's own tests describe. -/
theorem findWhere_remove_raises_typeerror (apiUrl : String) :
    (findWhere "id" (SearchVal.arr [Scalar.num 1, Scalar.num 2,
        Scalar.num 3])).removeRun apiUrl
      = Except.error JsError.typeError
    ∧ (findWhere "id" (SearchVal.arr [Scalar.num 1, Scalar.num 2,
        Scalar.num 3])).searchHandler
      = DynVal.sval (SearchVal.arr [Scalar.num 1, Scalar.num 2, Scalar.num 3])
    ∧ (SearchQuery.new "id" (SearchVal.arr [Scalar.num 1, Scalar.num 2,
        Scalar.num 3])).remove
      = { params := [("id", "1,2,3")], method := Method.delete, body := none
        , headers := none } :=
  ⟨rfl, rfl, by decide⟩

/-- C2 (amended): a GetQuery whose stored identifier is truthy (a nonzero
number or nonempty string, the identifiers findById stores) dispatches its
terminal get to the handler with (id, params, headers); a query without an
identifier (as findAll builds) dispatches with (params, headers).  A falsy
identifier (0 or the empty string) falls into the two-argument branch, which
is what the counterexample shows. -/
theorem getquery_get_dispatch (q : GetQuery Handler) (i : Ident)
    (hid : q.id = some i) (ht : i.truthy = true) :
    q.get = (q.getHandler, CallShape.withId i q.getHttpParams q.getHttpHeaders)
    ∧ (∀ q2 : GetQuery Handler, q2.id = none →
        q2.get = (q2.getHandler, CallShape.noId q2.getHttpParams
          q2.getHttpHeaders))
    ∧ (findById i).id = some i
    ∧ (findById i).getHandler = Handler.getH
    ∧ findAll.id = none
    ∧ findAll.getHandler = Handler.listH := by
  refine ⟨?_, ?_, rfl, rfl, rfl, rfl⟩
  · unfold GetQuery.get
    rw [hid]
    simp [ht]
  · intro q2 h2
    unfold GetQuery.get
    rw [h2]

/-- C2 witness: the amended dispatch theorem applied to findById(7). -/
theorem getquery_get_dispatch_witness :
    (findById (Ident.num 7)).id = some (Ident.num 7)
    ∧ (Ident.num 7).truthy = true
    ∧ (findById (Ident.num 7)).get
      = ((findById (Ident.num 7)).getHandler,
          CallShape.withId (Ident.num 7) (findById (Ident.num 7)).getHttpParams
            (findById (Ident.num 7)).getHttpHeaders) :=
  ⟨rfl, by decide,
   (getquery_get_dispatch (findById (Ident.num 7)) (Ident.num 7) rfl
     (by decide)).1⟩

/-- C2 counterexample: findById(0) produces a query constructed with a target
identifier, yet its get() invokes the single-resource delegate with only
(params, headers), not (id, params, headers), because the dispatch tests the
identifier's truthiness. -/
theorem getquery_get_dispatch_counterexample :
    (findById (Ident.num 0)).get = (Handler.getH, CallShape.noId [] none)
    ∧ (findById (Ident.num 0)).get
      ≠ ((findById (Ident.num 0)).getHandler,
          CallShape.withId (Ident.num 0) (findById (Ident.num 0)).getHttpParams
            (findById (Ident.num 0)).getHttpHeaders) :=
  ⟨by decide, by decide⟩

/-- C6 (amended): each andWhere call appends one filter pair to the
accumulated list, and when the filter field names are pairwise distinct and
none of them is a builder parameter name (only, limit, page, order), every
terminal operation (get, remove, patch) sends the builder parameters followed
by the filter pairs in the order the andWhere calls were made.  A repeated
field name instead overwrites the earlier value in place, as the
counterexample shows. -/
theorem andWhere_filters_after_params (q : SearchQuery)
    (hnd : (q.searchParams.map Prod.fst).Nodup)
    (hres : ∀ f ∈ q.searchParams.map Prod.fst,
      f ≠ "only" ∧ f ≠ "limit" ∧ f ≠ "page" ∧ f ≠ "order") :
    (∀ f v, (q.andWhere f v).searchParams = q.searchParams ++ [(f, v.toJs)])
    ∧ (SearchQuery.get q).params = q.base.getHttpParams ++ q.searchParams
    ∧ (SearchQuery.remove q).params = q.base.getHttpParams ++ q.searchParams
    ∧ ∀ r, (SearchQuery.patch q r).params
      = q.base.getHttpParams ++ q.searchParams := by
  have hdisj : ∀ p ∈ q.searchParams, ∀ a ∈ q.base.getHttpParams,
      a.1 ≠ p.1 := by
    intro p hp a ha
    have hk := getHttpParams_key_mem q.base a ha
    have hr := hres p.1 (List.mem_map_of_mem Prod.fst hp)
    rcases hk with hk | hk | hk | hk <;> rw [hk]
    · exact fun he => hr.1 he.symm
    · exact fun he => hr.2.1 he.symm
    · exact fun he => hr.2.2.1 he.symm
    · exact fun he => hr.2.2.2 he.symm
  have hfold := foldl_assocSet_eq_append q.searchParams q.base.getHttpParams
    hnd hdisj
  exact ⟨fun f v => rfl, hfold, hfold, fun r => hfold⟩

/-- C6 witness: the filter-order theorem applied to the demonstration query
with filters id=1, name=abc and an inherited limit of 5; the serialized
parameters are the limit followed by the two filters in call order. -/
theorem andWhere_filters_after_params_witness :
    (searchDemo.searchParams.map Prod.fst).Nodup
    ∧ (SearchQuery.get searchDemo).params
      = searchDemo.base.getHttpParams ++ searchDemo.searchParams
    ∧ (SearchQuery.get searchDemo).params
      = [("limit", "5"), ("id", "1"), ("name", "abc")] :=
  ⟨by decide,
   (andWhere_filters_after_params searchDemo (by decide)
     (by decide)).2.1,
   by decide⟩

/-- C6 counterexample: with the same field used twice (a=1 then a=2) the sent
parameters contain a single pair a=2, not the two appended pairs the claim
describes, because HttpParams.set replaces an existing key in place. -/
theorem andWhere_filters_after_params_counterexample :
    (SearchQuery.get ((SearchQuery.new "a"
        (SearchVal.scalar (Scalar.str "1"))).andWhere "a"
        (SearchVal.scalar (Scalar.str "2")))).params
      = [("a", "2")]
    ∧ (SearchQuery.get ((SearchQuery.new "a"
        (SearchVal.scalar (Scalar.str "1"))).andWhere "a"
        (SearchVal.scalar (Scalar.str "2")))).params
      ≠ ((SearchQuery.new "a" (SearchVal.scalar (Scalar.str "1"))).andWhere "a"
          (SearchVal.scalar (Scalar.str "2"))).base.getHttpParams
        ++ ((SearchQuery.new "a" (SearchVal.scalar (Scalar.str "1"))).andWhere
          "a" (SearchVal.scalar (Scalar.str "2"))).searchParams :=
  ⟨by decide, by decide⟩

/-- C3 (amended): materialization of a raw record builds a fresh instance
from the model class, shallow-copies all own-enumerable fields of the record
onto it, and — when the model declares an onInstantiated hook and the
assembled instance carries no own field named onInstantiated — invokes the
hook exactly once, on the fully assigned instance, before resolution; the
list envelope path materializes each data row the same way.  A raw record
whose own onInstantiated field shadows the hook skips it, as the
counterexample shows. -/
theorem materialization_hook_once (m : ModelClass) (hk : Rec → Rec) (row : Rec)
    (mv : Option MetaV) (hm : m.hook = some hk)
    (hsh : assocGet (objAssign m.init row) "onInstantiated" = none) :
    materializeTrace m row
      = Except.ok (hk (objAssign m.init row), [objAssign m.init row])
    ∧ materializeOne m row = Except.ok (hk (objAssign m.init row))
    ∧ generateListResponse m { data := some [row], meta := mv }
      = Except.ok { data := some [hk (objAssign m.init row)], meta := mv } := by
  have h1 : materializeTrace m row
      = Except.ok (hk (objAssign m.init row), [objAssign m.init row]) := by
    simp only [materializeTrace]
    rw [hsh, hm]
  have h2 : materializeOne m row = Except.ok (hk (objAssign m.init row)) := by
    unfold materializeOne
    rw [h1]
    rfl
  have h3 : materializeList m [row]
      = Except.ok [hk (objAssign m.init row)] := by
    unfold materializeList
    rw [h2]
    rfl
  refine ⟨h1, h2, ?_⟩
  simp only [generateListResponse, h3]

/-- C3 witness: the materialization theorem applied to the demonstration
model and the record with id 123 and name abc. -/
theorem materialization_hook_once_witness :
    modelDemo.hook = some hookDemo
    ∧ assocGet (objAssign modelDemo.init rowDemo) "onInstantiated" = none
    ∧ (materializeTrace modelDemo rowDemo
        = Except.ok (hookDemo (objAssign modelDemo.init rowDemo),
            [objAssign modelDemo.init rowDemo])
      ∧ materializeOne modelDemo rowDemo
        = Except.ok (hookDemo (objAssign modelDemo.init rowDemo))
      ∧ generateListResponse modelDemo { data := some [rowDemo], meta := none }
        = Except.ok
            { data := some [hookDemo (objAssign modelDemo.init rowDemo)]
              , meta := none }) :=
  ⟨rfl, by decide,
   materialization_hook_once modelDemo hookDemo rowDemo none rfl (by decide)⟩

/-- C3 counterexample: the model declares the hook, but a raw record that
itself carries a falsy own onInstantiated field shadows it, so the hook is
invoked zero times, not exactly once. -/
theorem materialization_hook_once_counterexample :
    modelDemo.hook = some hookDemo
    ∧ materializeTrace modelDemo [("onInstantiated", JVal.jnum 0)]
      = Except.ok ([("onInstantiated", JVal.jnum 0)], [])
    ∧ (materializeTrace modelDemo
        [("onInstantiated", JVal.jnum 0)]).toOption.map (fun p => p.2.length)
      = some 0
    ∧ (some 0 : Option Nat) ≠ some 1 :=
  ⟨rfl, rfl, rfl, by decide⟩

end ResourceLib
